import Mathlib

/-!
Verification development for `analysis/optimizer/optimizer.py` (A-Tune).

The Python module is shallowly embedded below.  Python values that can occur
in a knob descriptor or on a vector are modelled by `PyVal` (ints and floats
are modelled exactly, as rational numbers; float rounding is not exercised by
any property in scope).  Python exceptions are modelled by `PyErr` and
fallible code returns `Except PyErr`.  In-place mutation of the knob
descriptors (the code coerces `range` entries and extends `items` lists in
place) is modelled by explicit state passing: `build_space` returns the
updated knob list alongside the search space.

External collaborators (skopt minimizers, the sklearn scaler/regression, the
abtest / sampling / tpe managers, the ensemble feature selector) are out of
scope per the specification; their outputs enter the model as parameters
(`Oracle`).  The channel is modelled as a list of sent messages plus a list
of pending harness responses.
-/

/-- A Python value as it occurs in knob descriptors, vectors and messages. -/
inductive PyVal where
  | int (i : ℤ)
  | float (q : ℚ)
  | str (s : String)
deriving DecidableEq

/-- A Python exception, as far as the optimizer distinguishes them.
`blockedRecv` is not an exception: it marks a `recv()` with no response
pending, i.e. the worker would block forever (spec section 5). -/
inductive PyErr where
  | valueError (msg : String)
  | nameError (msg : String)
  | typeError (msg : String)
  | indexError (msg : String)
  | runtimeError (msg : String)
  | blockedRecv
deriving DecidableEq

/-- `Except.isOk` as a plain Bool (avoiding dependence on library naming). -/
def exOk {ε α : Type} : Except ε α → Bool
  | .ok _ => true
  | .error _ => false

/-- Numeric value of a digit character. -/
def digitVal (c : Char) : ℕ := c.toNat - 48

/-- Value of a nonempty all-digit character list, `none` otherwise. -/
def digitsVal : List Char → Option ℕ
  | [] => none
  | cs =>
    if cs.all Char.isDigit then some (cs.foldl (fun a c => a * 10 + digitVal c) 0)
    else none

/-- Python `int(s)` on a string: optional sign followed by digits.
(Whitespace stripping and underscore separators of CPython are elided; no
property in scope exercises them.) -/
def pyIntOfString (s : String) : Except PyErr ℤ :=
  let err : Except PyErr ℤ :=
    .error (.valueError ("invalid literal for int() with base 10: " ++ s))
  match s.toList with
  | '-' :: rest =>
    match digitsVal rest with
    | some n => .ok (-(n : ℤ))
    | none => err
  | '+' :: rest =>
    match digitsVal rest with
    | some n => .ok (n : ℤ)
    | none => err
  | cs =>
    match digitsVal cs with
    | some n => .ok (n : ℤ)
    | none => err

/-- Unsigned decimal literal `intpart[.fracpart]`; at least one digit overall. -/
def parseUnsignedDec : List Char → Option ℚ
  | cs =>
    match cs.splitOn '.' with
    | [ip] =>
      match digitsVal ip with
      | some n => some (n : ℚ)
      | none => none
    | [ip, fp] =>
      if ip = [] ∧ fp = [] then none
      else if (ip.all Char.isDigit) ∧ (fp.all Char.isDigit) then
        some ((ip.foldl (fun a c => a * 10 + digitVal c) 0 : ℚ) +
          (fp.foldl (fun a c => a * 10 + digitVal c) 0 : ℚ) / ((10 : ℚ) ^ fp.length))
      else none
    | _ => none

/-- Python `float(s)` on a string: optional sign, then a decimal literal.
(Exponent notation of CPython is elided; no property in scope uses it.) -/
def pyFloatOfString (s : String) : Except PyErr ℚ :=
  let err : Except PyErr ℚ :=
    .error (.valueError ("could not convert string to float: " ++ s))
  match s.toList with
  | '-' :: rest =>
    match parseUnsignedDec rest with
    | some q => .ok (-q)
    | none => err
  | '+' :: rest =>
    match parseUnsignedDec rest with
    | some q => .ok q
    | none => err
  | cs =>
    match parseUnsignedDec cs with
    | some q => .ok q
    | none => err

/-- Truncation toward zero, the behaviour of Python `int()` on a float. -/
def truncQ (q : ℚ) : ℤ := if 0 ≤ q then ⌊q⌋ else ⌈q⌉

/-- Python `int(x)`. -/
def pyInt : PyVal → Except PyErr ℤ
  | .int i => .ok i
  | .float q => .ok (truncQ q)
  | .str s => pyIntOfString s

/-- Python `float(x)`. -/
def pyFloat : PyVal → Except PyErr ℚ
  | .int i => .ok (i : ℚ)
  | .float q => .ok q
  | .str s => pyFloatOfString s

/-- Numeric reading of a value where Python arithmetic would be applied;
a string raises `TypeError` (as `numpy.arange` / `+` / `<` would). -/
def toNum : PyVal → Except PyErr ℚ
  | .int i => .ok (i : ℚ)
  | .float q => .ok q
  | .str _ => .error (.typeError "unsupported operand type for a str value")

/-- The numeric value a comparison or membership test sees, if any. -/
def qOf : PyVal → Option ℚ
  | .int i => some (i : ℚ)
  | .float q => some q
  | .str _ => none

/-- Python `==` on the values in scope: ints and floats compare numerically,
strings compare as strings, a number never equals a string. -/
def pyEq (a b : PyVal) : Bool :=
  match a, b with
  | .str x, .str y => x = y
  | .str _, _ => false
  | _, .str _ => false
  | a, b =>
    match qOf a, qOf b with
    | some x, some y => x = y
    | _, _ => false

/-- Python `in` on a list (membership via `==`). -/
def pyMem (v : PyVal) (xs : List PyVal) : Bool := xs.any (fun x => pyEq v x)

/-- `list(set(xs))` : duplicates (under Python `==`) removed.
CPython leaves the resulting order unspecified; the model keeps the first
occurrence.  No property in scope depends on the order inside a discrete
dimension. -/
def pyDedup (xs : List PyVal) : List PyVal :=
  xs.foldl (fun acc v => if pyMem v acc then acc else acc ++ [v]) []

/-- A rational rendered back as a Python number: integral values are ints
(as numpy integer scalars pickle to ints), the rest floats. -/
def pyOfQ (q : ℚ) : PyVal := if q.den = 1 then .int q.num else .float q

/-- One knob descriptor, with the fields `build_space`, `transfer` and the
objective read.  `range`, `items` are `none` when the YAML field is null;
`step` is `none` when the key is absent (the code tests `'step' in p_nob`).
`options` is empty for non-string knobs. -/
structure Knob where
  name : String
  type : String
  dtype : String
  range : Option (List PyVal)
  items : Option (List PyVal)
  options : List String
  step : Option ℚ
  ref : PyVal
deriving DecidableEq

/-- One search dimension: the finite candidate list a discrete knob yields,
or the `(low, high)` tuple a continuous knob yields. -/
inductive Dim where
  | cat (vals : List PyVal)
  | interval (lo hi : PyVal)
deriving DecidableEq

/-- The state `build_space` threads: the accumulated dimension list, the
accumulated `self.ref` reference vector, the `ref_value` local of
`build_space` (it persists across loop iterations, which matters when a
continuous knob has an unsupported dtype), and the knob objects after the
in-place mutations performed so far. -/
structure BState where
  dims : List Dim
  ref : List ℚ
  lastRef : Option ℚ
  knobs : List Knob
deriving DecidableEq

/-- `np.arange(start, stop, step)` over exact rationals (`step > 0` always
holds at the call sites because the code clamps non-positive steps). -/
def arangeQ (start stop step : ℚ) : List ℚ :=
  if 0 < step then
    (List.range (Int.toNat ⌈(stop - start) / step⌉)).map (fun i => start + (i : ℚ) * step)
  else []

/-- The `(r_range[i], r_range[i+1])` pairs of `range(0, length, 2)` where
`length` is the list length rounded down to even. -/
def rangePairs : List PyVal → List (PyVal × PyVal)
  | a :: b :: rest => (a, b) :: rangePairs rest
  | _ => []

/-- Step clamping of the discrete int branch: default 1, and
`1 if p_nob['step'] < 1 else p_nob['step']` when the key is present. -/
def clampStepInt (k : Knob) : ℚ :=
  match k.step with
  | none => 1
  | some s => if s < 1 then 1 else s

/-- Step clamping of the discrete float branch: default 0.1, and
`0.1 if p_nob['step'] <= 0 else p_nob['step']` when the key is present. -/
def clampStepFloat (k : Knob) : ℚ :=
  match k.step with
  | none => 1 / 10
  | some s => if s ≤ 0 then 1 / 10 else s

/-- Error-propagating map (Python: the first exception aborts the loop). -/
def mapE {α β : Type} (f : α → Except PyErr β) : List α → Except PyErr (List β)
  | [] => .ok []
  | a :: as =>
    match f a with
    | .error e => .error e
    | .ok b =>
      match mapE f as with
      | .error e => .error e
      | .ok bs => .ok (b :: bs)

/-- The values `np.arange(lo, hi + 1, step)` contributes for one range pair of
a discrete int knob (`TypeError` when a bound is a string). -/
def arangeIntPair (step : ℚ) (p : PyVal × PyVal) : Except PyErr (List ℚ) :=
  match toNum p.1, toNum p.2 with
  | .ok a, .ok b => .ok (arangeQ a (b + 1) step)
  | .error e, _ => .error e
  | _, .error e => .error e

/-- The values `np.arange(lo, hi, step)` contributes for one range pair of
a discrete float knob. -/
def arangeFloatPair (step : ℚ) (p : PyVal × PyVal) : Except PyErr (List ℚ) :=
  match toNum p.1, toNum p.2 with
  | .ok a, .ok b => .ok (arangeQ a b step)
  | .error e, _ => .error e
  | _, .error e => .error e

/-- All arange values of a discrete int knob (empty when `range` is null). -/
def arangeAllInt (k : Knob) : Except PyErr (List ℚ) :=
  match k.range with
  | none => .ok []
  | some rr =>
    match mapE (arangeIntPair (clampStepInt k)) (rangePairs rr) with
    | .error e => .error e
    | .ok chunks => .ok chunks.flatten

/-- All arange values of a discrete float knob. -/
def arangeAllFloat (k : Knob) : Except PyErr (List ℚ) :=
  match k.range with
  | none => .ok []
  | some rr =>
    match mapE (arangeFloatPair (clampStepFloat k)) (rangePairs rr) with
    | .error e => .error e
    | .ok chunks => .ok chunks.flatten

/-- The enumerate loop of the string branch (and of
`_get_intvalue_from_knobs`): starting at index `i`, return the appended
`keys` list and the indices whose option compares `==` to `ref`. -/
def stringLoop (ref : PyVal) : ℕ → List String → List PyVal × List ℚ
  | _, [] => ([], [])
  | i, v :: rest =>
    let (ks, ms) := stringLoop ref (i + 1) rest
    ((.int (i : ℤ)) :: ks, (if pyEq ref (.str v) then [(i : ℚ)] else []) ++ ms)

/-- `handle_discrete_data(self, p_nob)`: the returned candidate list (used
as the dimension by the caller), the values appended to `self.ref` (one for
int/float; one per matching option for string dtype), and the descriptor
after the in-place `items.extend`. -/
def handle_discrete_data (p_nob : Knob) : Except PyErr (Dim × List ℚ × Knob) :=
  if p_nob.dtype = "int" then
    match arangeAllInt p_nob with
    | .error e => .error e
    | .ok ar =>
      match pyInt p_nob.ref with
      | .error _ =>
        .error (.valueError ("the ref value of " ++ p_nob.name ++ " is not an integer value"))
      | .ok rv =>
        let dd := pyDedup ((p_nob.items.getD []) ++ ar.map pyOfQ)
        let fin := if pyMem (.int rv) dd then dd else dd ++ [.int rv]
        .ok (.cat fin, [(rv : ℚ)],
             { p_nob with items := p_nob.items.map (· ++ ar.map pyOfQ) })
  else if p_nob.dtype = "float" then
    match arangeAllFloat p_nob with
    | .error e => .error e
    | .ok ar =>
      match pyFloat p_nob.ref with
      | .error _ =>
        .error (.valueError ("the ref value of " ++ p_nob.name ++ " is not a float value"))
      | .ok rv =>
        let dd := pyDedup ((p_nob.items.getD []) ++ ar.map pyOfQ)
        let fin := if pyMem (pyOfQ rv) dd then dd else dd ++ [.float rv]
        .ok (.cat fin, [rv],
             { p_nob with items := p_nob.items.map (· ++ ar.map pyOfQ) })
  else if p_nob.dtype = "string" then
    let (keys, ms) := stringLoop p_nob.ref 0 p_nob.options
    if ms.isEmpty then
      .error (.valueError ("the ref value of " ++ p_nob.name ++ " is out of range"))
    else
      .ok (.cat keys, ms, p_nob)
  else
    .error (.valueError ("the dtype of " ++ p_nob.name ++ " is not supported"))

/-- Comparison `q < v` where `v` is an uncoerced descriptor entry
(`TypeError` when it is a string, as in Python 3). -/
def pyLtQV (q : ℚ) (v : PyVal) : Except PyErr Bool :=
  match toNum v with
  | .error e => .error e
  | .ok b => .ok (decide (q < b))

/-- Comparison `q > v` for an uncoerced descriptor entry. -/
def pyGtQV (q : ℚ) (v : PyVal) : Except PyErr Bool :=
  match toNum v with
  | .error e => .error e
  | .ok b => .ok (decide (b < q))

/-- The continuous branch of the `build_space` loop body.  `lastRef` is the
`ref_value` local left over from earlier iterations: when the dtype is
neither int nor float, no branch assigns `ref_value`, so the range check
reads the leftover value, and raises an unbound-local `NameError` when
there is none.  Returns the appended interval, the appended reference
entry, and the descriptor after the in-place range coercion. -/
def contStep (lastRef : Option ℚ) (p_nob : Knob) : Except PyErr (Dim × ℚ × Knob) :=
  match p_nob.range with
  | none => .error (.valueError ("the item of the scope value of " ++ p_nob.name ++ " must be 2"))
  | some rr =>
    match rr with
    | [a, b] =>
      if p_nob.dtype = "int" then
        match pyInt p_nob.ref, pyInt a, pyInt b with
        | .ok rv, .ok ia, .ok ib =>
          if (rv : ℚ) < (ia : ℚ) ∨ (ib : ℚ) < (rv : ℚ) then
            .error (.valueError ("the ref value of " ++ p_nob.name ++ " is out of range"))
          else
            .ok (.interval (.int ia) (.int ib), (rv : ℚ),
                 { p_nob with range := some [.int ia, .int ib] })
        | _, _, _ =>
          .error (.valueError ("the ref value of " ++ p_nob.name ++ " is not an integer value"))
      else if p_nob.dtype = "float" then
        match pyFloat p_nob.ref, pyFloat a, pyFloat b with
        | .ok rv, .ok fa, .ok fb =>
          if rv < fa ∨ fb < rv then
            .error (.valueError ("the ref value of " ++ p_nob.name ++ " is out of range"))
          else
            .ok (.interval (.float fa) (.float fb), rv,
                 { p_nob with range := some [.float fa, .float fb] })
        | _, _, _ =>
          -- the float branch of the source reuses the integer-branch message
          .error (.valueError ("the ref value of " ++ p_nob.name ++ " is not an integer value"))
      else
        match lastRef with
        | none =>
          .error (.nameError "local variable ref_value referenced before assignment")
        | some rv =>
          match pyLtQV rv a, pyGtQV rv b with
          | .ok lt, .ok gt =>
            if lt ∨ gt then
              .error (.valueError ("the ref value of " ++ p_nob.name ++ " is out of range"))
            else
              .ok (.interval a b, rv, p_nob)
          | .error e, _ => .error e
          | _, .error e => .error e
    | _ => .error (.valueError ("the item of the scope value of " ++ p_nob.name ++ " must be 2"))

/-- One iteration of the `build_space` loop over `self.knobs`. -/
def build_spaceStep (st : BState) (p_nob : Knob) : Except PyErr BState :=
  if p_nob.type = "discrete" then
    match handle_discrete_data p_nob with
    | .error e => .error e
    | .ok (d, radd, k2) =>
      .ok { dims := st.dims ++ [d], ref := st.ref ++ radd,
            lastRef := st.lastRef, knobs := st.knobs ++ [k2] }
  else if p_nob.type = "continuous" then
    match contStep st.lastRef p_nob with
    | .error e => .error e
    | .ok (d, rv, k2) =>
      .ok { dims := st.dims ++ [d], ref := st.ref ++ [rv],
            lastRef := some rv, knobs := st.knobs ++ [k2] }
  else
    .error (.valueError ("the type of " ++ p_nob.name ++ " is not supported"))

/-- The `build_space` loop from a given state. -/
def buildGo (st : BState) : List Knob → Except PyErr BState
  | [] => .ok st
  | k :: ks =>
    match build_spaceStep st k with
    | .error e => .error e
    | .ok st1 => buildGo st1 ks

/-- `Optimizer.build_space`: the dimension list (`objective_params_list`),
the reference vector `self.ref`, and the knob descriptors after the
in-place mutations, or the exception raised. -/
def build_space (knobs : List Knob) : Except PyErr BState :=
  buildGo { dims := [], ref := [], lastRef := none, knobs := [] } knobs

/-- Round half to even, the rounding of Python `round()` (the model rounds
the exact rational; CPython rounds the underlying binary double, a
difference no property in scope exercises). -/
def roundHalfEven (q : ℚ) : ℤ :=
  if q - (⌊q⌋ : ℚ) < 1 / 2 then ⌊q⌋
  else if 1 / 2 < q - (⌊q⌋ : ℚ) then ⌊q⌋ + 1
  else if 2 ∣ ⌊q⌋ then ⌊q⌋ else ⌊q⌋ + 1

/-- Python `round(q, 2)`. -/
def round2 (q : ℚ) : ℚ := (roundHalfEven (q * 100) : ℚ) / 100

/-- The sort key relation of `sorted(result, key=lambda x: -np.abs(x[0]))`
on `(coefficient, label)` pairs: earlier means larger absolute coefficient.
`insertionSort` with this relation is stable in the same way CPython
`sorted` is (ties keep their original order). -/
def rankLe (a b : ℚ × String) : Prop := |b.1| ≤ |a.1|

instance : DecidableRel rankLe := fun a b => inferInstanceAs (Decidable (|b.1| ≤ |a.1|))

instance : IsTotal (ℚ × String) rankLe := ⟨fun a b => le_total (|b.1|) (|a.1|)⟩

instance : IsTrans (ℚ × String) rankLe := ⟨fun _ _ _ h1 h2 => le_trans h2 h1⟩

/-- `Optimizer.feature_importance` after the external collaborators: the
`StandardScaler` fit and the `Lasso` regression are sklearn collaborators,
so the model takes the fitted coefficient vector `lasso.coef_` as input and
covers the ranking logic that follows it.  The rank string
`"label: pct%, ..."` is modelled as the ordered list of
`(label, rounded percentage)` pairs; the all-zero branch emits
`(label, 0)` in label order. -/
def feature_importance (coefs : List ℚ) (labels : List String) : List (String × ℚ) :=
  let total := (coefs.map (fun c => |c|)).sum
  if total = 0 then labels.map (fun l => (l, (0 : ℚ)))
  else
    (List.insertionSort rankLe (coefs.zip labels)).map
      (fun p => (p.2, round2 (p.1 * 100 / total)))

/-- Python dict update `d[k] = v`: replace the value at an existing key in
place (keys are unique in a dict), else append the new binding. -/
def dictSet {β : Type} (d : List (String × β)) (k : String) (v : β) : List (String × β) :=
  match d with
  | [] => [(k, v)]
  | p :: rest => if p.1 = k then (k, v) :: rest else p :: dictSet rest k v

/-- Python dict lookup. -/
def dictGet {β : Type} (d : List (String × β)) (k : String) : Option β :=
  (d.find? (fun p => p.1 = k)).map (fun p => p.2)

/-- Split a character list at every occurrence of `c` (Python `str.split`). -/
def splitCharList (c : Char) : List Char → List Char → List (List Char)
  | [], acc => [acc.reverse]
  | x :: xs, acc =>
    if x = c then acc.reverse :: splitCharList c xs []
    else splitCharList c xs (x :: acc)

/-- Python `s.split(sep)` for a one-character separator. -/
def pySplit (c : Char) (s : String) : List String :=
  (splitCharList c s.toList []).map (fun cs => String.mk cs)

/-- `Optimizer._get_intvalue_from_knobs(self, kv)`: resolve each knob name
through `kv`; every non-string dtype goes through Python `int()`, a string
dtype appends the index of every option that compares equal to the value
(and appends nothing when none matches). -/
def get_intvalue_from_knobs (knobs : List Knob) (kv : List (String × String)) :
    Except PyErr (List ℚ) :=
  match knobs with
  | [] => .ok []
  | k :: rest =>
    match dictGet kv k.name with
    | none => .error (.valueError ("the param " ++ k.name ++ " is not in the x0 ref"))
    | some v =>
      if k.dtype ≠ "string" then
        match pyIntOfString v with
        | .error e => .error e
        | .ok n =>
          match get_intvalue_from_knobs rest kv with
          | .error e => .error e
          | .ok xs => .ok ((n : ℚ) :: xs)
      else
        match get_intvalue_from_knobs rest kv with
        | .error e => .error e
        | .ok xs => .ok ((stringLoop (.str v) 0 k.options).2 ++ xs)

/-- The `kv` dict built from one `x0` entry: every token must split into
exactly two parts on `=`. -/
def kvOfTokens : List String → List (String × String) → Except PyErr (List (String × String))
  | [], kv => .ok kv
  | tok :: rest, kv =>
    match pySplit '=' tok with
    | [a, b] => kvOfTokens rest (dictSet kv a b)
    | _ => .error (.valueError ("the param format of " ++ tok ++ " is not correct"))

/-- The loop of `transfer` over the `x0` entries. -/
def transferEntries (knobs : List Knob) : List (List String) → Except PyErr (List (List ℚ))
  | [] => .ok []
  | xv :: rest =>
    if xv.length ≠ knobs.length then
      .error (.valueError "x0 is not the same length with knobs")
    else
      match kvOfTokens xv [] with
      | .error e => .error e
      | .ok kv =>
        match get_intvalue_from_knobs knobs kv with
        | .error e => .error e
        | .ok refX =>
          if refX.length ≠ knobs.length then
            .error (.valueError "tuning parameter is not the same length with knobs")
          else
            match transferEntries knobs rest with
            | .error e => .error e
            | .ok rs => .ok (refX :: rs)

/-- `Optimizer.transfer`: empty result when either warm-start input is
absent; otherwise the encoded vectors and the `y0` scores cast to float. -/
def transfer (knobs : List Knob) (x0 : Option (List (List String)))
    (y0 : Option (List PyVal)) : Except PyErr (List (List ℚ) × List ℚ) :=
  match x0, y0 with
  | some xs, some ys =>
    match transferEntries knobs xs with
    | .error e => .error e
    | .ok vecs =>
      match mapE pyFloat ys with
      | .error e => .error e
      | .ok scores => .ok (vecs, scores)
  | _, _ => .ok ([], [])

/-- The error classification the `except` clauses of `run` apply before
sending the failure on the channel: `ValueError` and `RuntimeError` are sent
as they are, anything else is wrapped as
`Exception("Unexpected Error:", repr(e))`. -/
inductive SentErr where
  | valueError (msg : String)
  | runtimeError (msg : String)
  | unexpected (msg : String)
deriving DecidableEq

/-- Rendering of an exception for the unexpected-error wrapper. -/
def describeErr : PyErr → String
  | .valueError m => "ValueError: " ++ m
  | .nameError m => "NameError: " ++ m
  | .typeError m => "TypeError: " ++ m
  | .indexError m => "IndexError: " ++ m
  | .runtimeError m => "RuntimeError: " ++ m
  | .blockedRecv => "blocked"

/-- The `except` dispatch of `run`. -/
def sendOf : PyErr → SentErr
  | .valueError m => .valueError m
  | .runtimeError m => .runtimeError m
  | e => .unexpected ("Unexpected Error: " ++ describeErr e)

/-- A message sent on the channel by the worker (or, for the collaborator
engines, by their managers). -/
inductive Msg where
  | suggested (param : List (String × PyVal))
  | error (e : SentErr)
  | final (param : List (String × PyVal)) (rank : Option String) (finished : Bool)
deriving DecidableEq

/-- How the worker function `run` ends: a return value (`params`,
`best_params`, or `None` after a handled error), an uncaught exception
(which kills the worker process with no further message), or an indefinite
block on `recv`. -/
inductive Outcome where
  | returned (v : Option (List (String × PyVal)))
  | crashed (e : PyErr)
  | hung
deriving DecidableEq

/-- The observable result of one run. `n_random_starts` is the instance
attribute after the run; `rankInvoked` records whether
`get_ensemble_feature_importance` was called. -/
structure RunResult where
  msgs : List Msg
  outcome : Outcome
  n_random_starts : ℕ
  rankInvoked : Bool
deriving DecidableEq

/-- The external collaborators of one run, specified at their interfaces:
the vectors the skopt minimizer chooses to evaluate and the best vector
`ret.x` it returns; the messages, trials and best params the
abtest / lhs / tpe managers produce on their own; and the ensemble feature
selector as an opaque function. -/
structure Oracle where
  evalPoints : List (List ℚ)
  best : List ℚ
  collabMsgs : List Msg
  collabOptions : List (List ℚ)
  collabPerf : List ℚ
  collabParams : List (String × PyVal)
  rankFn : List (List ℚ) → List ℚ → List String → String

/-- Python list indexing with an arbitrary numeric subscript: non-integral
subscripts raise `TypeError`, negative ones count from the end, out of
bounds raises `IndexError`. -/
def listIndex (xs : List String) (q : ℚ) : Except PyErr String :=
  if q.den ≠ 1 then .error (.typeError "list indices must be integers")
  else
    let j : ℤ := if q.num < 0 then q.num + xs.length else q.num
    if j < 0 then .error (.indexError "list index out of range")
    else
      match xs.get? j.toNat with
      | some v => .ok v
      | none => .error (.indexError "list index out of range")

/-- The decoding loop shared by `objective` and the final-parameter loop:
`params[knob['name']] = knob['options'][var[i]]` for string dtype, the raw
component otherwise.  Consuming `var` positionally models `var[i]`; a vector
shorter than the knob list raises `IndexError`. -/
def decodeVars (knobs : List Knob) (var : List ℚ) (params : List (String × PyVal)) :
    Except PyErr (List (String × PyVal)) :=
  match knobs with
  | [] => .ok params
  | k :: rest =>
    match var with
    | [] => .error (.indexError "list index out of range")
    | q :: qs =>
      if k.dtype = "string" then
        match listIndex k.options q with
        | .error e => .error e
        | .ok v => decodeVars rest qs (dictSet params k.name (.str v))
      else
        decodeVars rest qs (dictSet params k.name (pyOfQ q))

/-- The final-parameter loop additionally collects `labels`. -/
def finalDecode (knobs : List Knob) (x : List ℚ) (params : List (String × PyVal)) :
    Except PyErr (List (String × PyVal) × List String) :=
  match knobs with
  | [] => .ok (params, [])
  | k :: rest =>
    match x with
    | [] => .error (.indexError "list index out of range")
    | q :: qs =>
      match
        (if k.dtype = "string" then
          match listIndex k.options q with
          | .error e => .error e
          | .ok v => .ok (dictSet params k.name (.str v))
        else
          .ok (dictSet params k.name (pyOfQ q)) : Except PyErr (List (String × PyVal))) with
      | .error e => .error e
      | .ok params1 =>
        match finalDecode rest qs params1 with
        | .error e => .error e
        | .ok (params2, labels) => .ok (params2, k.name :: labels)

/-- Sum the comma-separated sub-measurements of one harness response
(`float(value)` on each, first failure aborts). -/
def sumFloats : List String → Except PyErr ℚ
  | [] => .ok 0
  | v :: rest =>
    match pyFloatOfString v with
    | .error e => .error e
    | .ok n =>
      match sumFloats rest with
      | .error e => .error e
      | .ok r => .ok (n + r)

/-- Decode one `EvaluationResult` string. -/
def parseEvalResult (s : String) : Except PyErr ℚ := sumFloats (pySplit ',' s)

/-- The evaluation loop a skopt minimizer drives through `objective`:
for each chosen vector, update `params`, send a `SuggestedConfig`, block for
a response, sum it, and record the trial.  Returns the messages sent and
either the final `(params, options, performance)` or the exception that
escaped into `run`. -/
def minimizeLoop (knobs : List Knob) (params : List (String × PyVal))
    (pts : List (List ℚ)) (resps : List String)
    (opts : List (List ℚ)) (perf : List ℚ) :
    List Msg × Except PyErr (List (String × PyVal) × List (List ℚ) × List ℚ) :=
  match pts with
  | [] => ([], .ok (params, opts, perf))
  | pt :: rest =>
    match decodeVars knobs pt params with
    | .error e => ([], .error e)
    | .ok params1 =>
      match resps with
      | [] => ([.suggested params1], .error .blockedRecv)
      | r :: rs =>
        match parseEvalResult r with
        | .error e => ([.suggested params1], .error e)
        | .ok num =>
          let (ms, res) := minimizeLoop knobs params1 rest rs (opts ++ [pt]) (perf ++ [num])
          (.suggested params1 :: ms, res)

/-- `ref_x = self.ref if len(ref_x) == 0 else ref_x`, then the wrap
`ref_x = [ref_x]` when the first element is not a list; reading `ref_x[0]`
of an empty list raises `IndexError`. -/
def wrapRefX (bref : List ℚ) (refX : List (List ℚ)) : Except PyErr (List (List ℚ)) :=
  match refX with
  | [] =>
    match bref with
    | [] => .error (.indexError "list index out of range")
    | _ => .ok [bref]
  | _ => .ok refX

/-- `Optimizer.run`.  `nrs0` is the configured `_n_random_starts`; the
collaborator engines and the minimizer behaviour come from `oracle`; `resps`
are the pending harness responses.  The final-parameter loop after the
`try` block runs for every engine except `tpe` (which returns inside the
block); for `abtest`, `lhs` and unrecognised engines the local `ret` was
never assigned, so a nonempty knob list makes that loop raise an
unbound-local `NameError` outside any handler. -/
def runModel (knobs : List Knob) (engine : String) (x0 : Option (List (List String)))
    (y0 : Option (List PyVal)) (nrs0 : ℕ) (oracle : Oracle) (resps : List String) :
    RunResult :=
  match build_space knobs with
  | .error e => ⟨[.error (sendOf e)], .returned none, nrs0, false⟩
  | .ok bst =>
    match transfer bst.knobs x0 y0 with
    | .error e => ⟨[.error (sendOf e)], .returned none, nrs0, false⟩
    | .ok (refX, _refY) =>
      match wrapRefX bst.ref refX with
      | .error e => ⟨[.error (sendOf e)], .returned none, nrs0, false⟩
      | .ok wrapped =>
        let nrs1 := if wrapped.length ≥ nrs0 then 0 else nrs0 - wrapped.length + 1
        if engine = "random" ∨ engine = "bayes" then
          match minimizeLoop bst.knobs [] oracle.evalPoints resps [] [] with
          | (ms, .error .blockedRecv) => ⟨ms, .hung, nrs1, false⟩
          | (ms, .error e) => ⟨ms ++ [.error (sendOf e)], .returned none, nrs1, false⟩
          | (ms, .ok (params1, opts1, perf1)) =>
            match finalDecode bst.knobs oracle.best params1 with
            | .error e => ⟨ms, .crashed e, nrs1, false⟩
            | .ok (params2, labels) =>
              let rank := oracle.rankFn opts1 perf1 labels
              ⟨ms ++ [.final params2 (some rank) true], .returned (some params2), nrs1, true⟩
        else if engine = "abtest" ∨ engine = "lhs" then
          -- the managers drive their own channel traffic and return the
          -- trials and best params; afterwards the final-parameter loop
          -- reads the unbound local `ret`
          if bst.knobs.isEmpty then
            let rank := oracle.rankFn oracle.collabOptions oracle.collabPerf []
            ⟨oracle.collabMsgs ++ [.final oracle.collabParams (some rank) true],
             .returned (some oracle.collabParams), nrs1, true⟩
          else
            ⟨oracle.collabMsgs,
             .crashed (.nameError "local variable ret referenced before assignment"), nrs1, false⟩
        else if engine = "tpe" then
          ⟨oracle.collabMsgs ++ [.final oracle.collabParams none true],
           .returned (some oracle.collabParams), nrs1, false⟩
        else
          -- no engine branch matched: params/options/performance keep their
          -- initial empty values and the final-parameter loop reads the
          -- unbound local `ret`
          if bst.knobs.isEmpty then
            let rank := oracle.rankFn [] [] []
            ⟨[.final [] (some rank) true], .returned (some []), nrs1, true⟩
          else
            ⟨[], .crashed (.nameError "local variable ret referenced before assignment"), nrs1, false⟩

/-- The per-knob step `build_space` performs, taken from a fresh state
(fresh `ref_value` local): the dimension, the reference entries and the
mutated descriptor this knob alone contributes. -/
def stepOut (k : Knob) : Except PyErr (Dim × List ℚ × Knob) :=
  if k.type = "discrete" then handle_discrete_data k
  else if k.type = "continuous" then
    (contStep none k).map (fun o => (o.1, [o.2.1], o.2.2))
  else .error (.valueError ("the type of " ++ k.name ++ " is not supported"))

/-- The dimension knob `k` contributes (junk default on failure). -/
def dimOf (k : Knob) : Dim :=
  match stepOut k with
  | .ok o => o.1
  | .error _ => .cat []

/-- The reference entry knob `k` contributes (junk default on failure). -/
def refOf (k : Knob) : ℚ :=
  match stepOut k with
  | .ok o => o.2.1.headD 0
  | .error _ => 0

/-- The descriptor after `build_space` processed knob `k`. -/
def knobAfter (k : Knob) : Knob :=
  match stepOut k with
  | .ok o => o.2.2
  | .error _ => k

/-- A knob `build_space` accepts contributing exactly one reference entry:
its processing from a fresh state succeeds (which for a continuous knob
forces dtype int or float) and appends exactly one value to `self.ref`
(which for a string knob means its ref matches exactly one option). -/
def knobValidU (k : Knob) : Bool :=
  match stepOut k with
  | .ok o => o.2.1.length = 1
  | .error _ => false

/-- The descriptor fields `build_space` never writes. -/
def presKnob (a b : Knob) : Prop :=
  b.name = a.name ∧ b.type = a.type ∧ b.dtype = a.dtype ∧
  b.options = a.options ∧ b.step = a.step ∧ b.ref = a.ref

/-- The option indices whose value compares `==` to `ref`, in order. -/
def optionMatchIdxs (ref : PyVal) (options : List String) : List ℚ :=
  ((options.enum.filter (fun p => pyEq ref (.str p.2))).map (fun p => ((p.1 : ℕ) : ℚ)))

/-- The name part of one `name=value` token. -/
def tokenName (tok : String) : String := (pySplit '=' tok).headD ""

/-- The value part of one `name=value` token. -/
def tokenValOf (tok : String) : String := (pySplit '=' tok).getD 1 ""

/-- The value the `kv` dict of `transfer` ends up holding for `name`
(the last token with that name wins, as for a Python dict). -/
def lookupTok (toks : List String) (name : String) : Option String :=
  (toks.reverse.find? (fun t => tokenName t = name)).map tokenValOf

/-- Well-formed tokens of one `x0` entry: each splits into exactly two
parts on `=`, and every knob name appears exactly once. -/
def tokensOk (knobs : List Knob) (toks : List String) : Bool :=
  toks.all (fun t => (pySplit '=' t).length = 2) &&
  knobs.all (fun k => toks.countP (fun t => tokenName t = k.name) = 1)

/-- Per-knob value validity of one `x0` entry: the named value is present
and parses as an int literal for a non-string dtype (the code applies
`int()` to every non-string dtype), or matches exactly one option for a
string dtype. -/
def entryValsOk (knobs : List Knob) (toks : List String) : Bool :=
  knobs.all (fun k =>
    match lookupTok toks k.name with
    | none => false
    | some v =>
      if k.dtype = "string" then (stringLoop (.str v) 0 k.options).2.length = 1
      else exOk (pyIntOfString v))

/-- The numeric encoding `transfer` produces for knob `k` from one entry
(junk default when invalid). -/
def encKnob (toks : List String) (k : Knob) : ℚ :=
  match lookupTok toks k.name with
  | none => 0
  | some v =>
    if k.dtype = "string" then (stringLoop (.str v) 0 k.options).2.headD 0
    else
      match pyIntOfString v with
      | .ok n => (n : ℚ)
      | .error _ => 0

/-- Per-knob value validity at the `kv`-dict level. -/
def kvValsOk (kv : List (String × String)) (k : Knob) : Bool :=
  match dictGet kv k.name with
  | none => false
  | some v =>
    if k.dtype = "string" then (stringLoop (.str v) 0 k.options).2.length = 1
    else exOk (pyIntOfString v)

/-- The numeric encoding at the `kv`-dict level. -/
def encKV (kv : List (String × String)) (k : Knob) : ℚ :=
  match dictGet kv k.name with
  | none => 0
  | some v =>
    if k.dtype = "string" then (stringLoop (.str v) 0 k.options).2.headD 0
    else
      match pyIntOfString v with
      | .ok n => (n : ℚ)
      | .error _ => 0

/-- `float(y)` with a junk default (total companion of `pyFloat`). -/
def pyFloatD (v : PyVal) : ℚ :=
  match pyFloat v with
  | .ok q => q
  | .error _ => 0

/-- Whether a build result failed with a `ValueError` (a configuration
error in the sense of spec section 7). -/
def isValueError (r : Except PyErr BState) : Bool :=
  match r with
  | .error (.valueError _) => true
  | _ => false

/-- Whether a sent message is an unexpected-error report. -/
def msgIsUnexpected (m : Msg) : Bool :=
  match m with
  | .error (.unexpected _) => true
  | _ => false

/-- Example knob: discrete int, items {1, 2}, no range, ref 1. -/
def kIntItems : Knob := ⟨"x", "discrete", "int", none, some [.int 1, .int 2], [], none, .int 1⟩

/-- Oracle for collaborator engines: best params x=2, no channel traffic. -/
def oracleCollab : Oracle := ⟨[], [], [], [], [], [("x", .int 2)], fun _ _ _ => "r"⟩

/-- Oracle for a one-evaluation skopt run: evaluate [2], return best [2]. -/
def oracleMin : Oracle := ⟨[[2]], [2], [], [], [], [], fun _ _ _ => "r"⟩

/-- Oracle for a zero-evaluation skopt run returning best [1]. -/
def oracleIdle : Oracle := ⟨[], [1], [], [], [], [], fun _ _ _ => "r"⟩

/-- Oracle that evaluates [1] once (used against a malformed response). -/
def oracleOne : Oracle := ⟨[[1]], [1], [], [], [], [], fun _ _ _ => "r"⟩

/-! ### Lemmas and claim theorems -/

theorem list_len_one {α : Type} (l : List α) (d : α) (h : l.length = 1) :
    l = [l.headD d] := by
  match l, h with
  | [a], _ => rfl

theorem stringLoop_keys (r : PyVal) (os : List String) : ∀ n,
    (stringLoop r n os).1 = (List.range' n os.length).map (fun i : ℕ => PyVal.int (i : ℤ)) := by
  induction os with
  | nil => intro n; simp [stringLoop]
  | cons v rest ih =>
    intro n
    simp [stringLoop, List.range'_succ, ih]

theorem stringLoop_snd (r : PyVal) (os : List String) : ∀ n,
    (stringLoop r n os).2 =
      ((List.enumFrom n os).filter (fun p => pyEq r (.str p.2))).map
        (fun p => ((p.1 : ℕ) : ℚ)) := by
  induction os with
  | nil => intro n; simp [stringLoop]
  | cons v rest ih =>
    intro n
    simp only [stringLoop, List.enumFrom_cons, List.filter_cons]
    by_cases h : pyEq r (.str v)
    · simp [h, ih]
    · simp [h, ih]

theorem stringLoop_matches (r : PyVal) (os : List String) :
    (stringLoop r 0 os).2 = optionMatchIdxs r os := by
  rw [stringLoop_snd]; rfl

theorem stringLoop_pair (r : PyVal) (os : List String) :
    stringLoop r 0 os =
      ((List.range os.length).map (fun i : ℕ => PyVal.int (i : ℤ)), optionMatchIdxs r os) := by
  have h1 : (stringLoop r 0 os).1 =
      (List.range os.length).map (fun i : ℕ => PyVal.int (i : ℤ)) := by
    rw [stringLoop_keys, List.range_eq_range']
  have h2 := stringLoop_matches r os
  calc stringLoop r 0 os = ((stringLoop r 0 os).1, (stringLoop r 0 os).2) := rfl
    _ = _ := by rw [h1, h2]

/-- Claim C10: for a string-dtype discrete knob, `handle_discrete_data`
appends one reference entry per position of `options` whose value equals
`ref` — exactly one entry when the match is unique, several entries for a
single knob when `options` holds the ref value at several positions — and
raises the configuration error exactly when no position matches.  The
descriptor itself is returned unchanged and the candidate list is the full
index list. -/
theorem claim_C10_string_ref_matches (name ty : String) (range items : Option (List PyVal))
    (options : List String) (step : Option ℚ) (ref : PyVal) :
    handle_discrete_data ⟨name, ty, "string", range, items, options, step, ref⟩ =
      (if (optionMatchIdxs ref options).isEmpty then
        .error (.valueError ("the ref value of " ++ name ++ " is out of range"))
      else
        .ok (.cat ((List.range options.length).map (fun i : ℕ => PyVal.int (i : ℤ))),
             optionMatchIdxs ref options,
             ⟨name, ty, "string", range, items, options, step, ref⟩)) := by
  simp only [handle_discrete_data]
  rw [if_neg (show ¬ (("string" : String) = "int") from by decide),
      if_neg (show ¬ (("string" : String) = "float") from by decide)]
  rw [if_pos trivial, stringLoop_pair]

/-- Claim C5 (amended): any failure during space building aborts the whole
build — `build_space` returns only an exception, no partial space — and the
run sends exactly the one error report, no evaluation message, and returns
nothing.  Missing or invalid range, coercion failure, reference outside its
range, unsupported type, unsupported dtype of a discrete knob, and a string
ref matching no option all raise descriptive `ValueError`s; however a
`continuous` knob whose dtype is neither int nor float raises an
unbound-local `NameError` (reported as an unexpected error), not a value
error, when no earlier continuous knob left a coerced reference behind. -/
theorem claim_C5_amended :
    (∀ (ks : List Knob) (engine : String) (x0 : Option (List (List String)))
        (y0 : Option (List PyVal)) (n : ℕ) (oracle : Oracle) (resps : List String) (e : PyErr),
      build_space ks = .error e →
        runModel ks engine x0 y0 n oracle resps =
          ⟨[.error (sendOf e)], .returned none, n, false⟩) ∧
    (build_space [⟨"x", "continuous", "int", none, none, [], none, .int 5⟩] =
      .error (.valueError "the item of the scope value of x must be 2")) ∧
    (build_space [⟨"x", "continuous", "int", some [.int 0], none, [], none, .int 5⟩] =
      .error (.valueError "the item of the scope value of x must be 2")) ∧
    (build_space [⟨"x", "continuous", "int", some [.int 0, .int 10], none, [], none, .str "abc"⟩] =
      .error (.valueError "the ref value of x is not an integer value")) ∧
    (build_space [⟨"x", "continuous", "int", some [.int 0, .int 10], none, [], none, .int 20⟩] =
      .error (.valueError "the ref value of x is out of range")) ∧
    (build_space [⟨"x", "weird", "int", none, none, [], none, .int 5⟩] =
      .error (.valueError "the type of x is not supported")) ∧
    (build_space [⟨"x", "discrete", "weird", none, none, [], none, .int 5⟩] =
      .error (.valueError "the dtype of x is not supported")) ∧
    (build_space [⟨"x", "discrete", "string", none, none, ["a", "b"], none, .str "c"⟩] =
      .error (.valueError "the ref value of x is out of range")) ∧
    (build_space [⟨"x", "continuous", "string", some [.int 0, .int 10], none, [], none, .str "a"⟩] =
      .error (.nameError "local variable ref_value referenced before assignment")) := by
  refine ⟨?_, ?_, ?_, ?_, ?_, ?_, ?_, ?_, ?_⟩
  · intro ks engine x0 y0 n oracle resps e h
    simp only [runModel, h]
  · with_unfolding_all rfl
  · with_unfolding_all rfl
  · with_unfolding_all rfl
  · with_unfolding_all rfl
  · with_unfolding_all rfl
  · with_unfolding_all rfl
  · with_unfolding_all rfl
  · with_unfolding_all rfl

/-- Claim C5, witness: a knob with a missing range fails the build with a
value error and the run sends only that error report. -/
theorem claim_C5_witness :
    (build_space [⟨"x", "continuous", "int", none, none, [], none, .int 5⟩] =
      .error (.valueError "the item of the scope value of x must be 2")) ∧
    runModel [⟨"x", "continuous", "int", none, none, [], none, .int 5⟩] "random"
        none none 20 oracleIdle [] =
      ⟨[.error (sendOf (.valueError "the item of the scope value of x must be 2"))],
       .returned none, 20, false⟩ :=
  ⟨by with_unfolding_all rfl,
   claim_C5_amended.1 _ "random" none none 20 oracleIdle []
     (.valueError "the item of the scope value of x must be 2") (by with_unfolding_all rfl)⟩

/-- Claim C5, counterexample to the claim as stated: a continuous knob with
dtype `string` is an unsupported-dtype configuration, yet the build failure
is not a value error — the code falls through both dtype branches and the
range check reads the never-assigned `ref_value` local, raising a
`NameError`. -/
theorem claim_C5_counterexample :
    exOk (build_space [⟨"x", "continuous", "string", some [.int 0, .int 10], none, [], none,
        .str "a"⟩]) = false ∧
    isValueError (build_space [⟨"x", "continuous", "string", some [.int 0, .int 10], none, [],
        none, .str "a"⟩]) = false := by
  exact ⟨by with_unfolding_all rfl, by with_unfolding_all rfl⟩

/-- Claim C2 (code_bug evidence): the final message of a completed `random`
run carries the params, a rank string and `finished = true`, and the final
message of a completed `tpe` run carries only the params and
`finished = true` with ranking never invoked — but a completed `abtest` or
`lhs` search never reaches its final message: the final-parameter loop
reads the local `ret`, which only the `random`/`bayes` branches assign, so
the worker dies on an unbound local and nothing further is sent. -/
theorem claim_C2_final_messages :
    (runModel [kIntItems] "random" none none 20 oracleMin ["1.5"] =
      ⟨[.suggested [("x", .int 2)], .final [("x", .int 2)] (some "r") true],
       .returned (some [("x", .int 2)]), 20, true⟩) ∧
    (runModel [kIntItems] "tpe" none none 20 oracleCollab [] =
      ⟨[.final [("x", .int 2)] none true], .returned (some [("x", .int 2)]), 20, false⟩) ∧
    (runModel [kIntItems] "abtest" none none 20 oracleCollab [] =
      ⟨[], .crashed (.nameError "local variable ret referenced before assignment"), 20, false⟩) ∧
    (runModel [kIntItems] "lhs" none none 20 oracleCollab [] =
      ⟨[], .crashed (.nameError "local variable ret referenced before assignment"), 20, false⟩) := by
  refine ⟨?_, ?_, ?_, ?_⟩
  · with_unfolding_all rfl
  · with_unfolding_all rfl
  · with_unfolding_all rfl
  · with_unfolding_all rfl

/-- Claim C3 (amended): when `transfer` yields `k ≥ 1` warm-start vectors
and the configured random-start count is `n`, the count recorded for the
probabilistic engine is `0` when `k ≥ n`, and `n - k + 1` — one more than
the `n - k` the specification states — when `k < n`.  It is never
negative, and warm-start count at or above the configured count forces it
to exactly 0. -/
theorem claim_C3_adjusted_random_starts (ks : List Knob) (x0 : Option (List (List String)))
    (y0 : Option (List PyVal)) (n : ℕ) (oracle : Oracle) (resps : List String)
    (bst : BState) (vecs : List (List ℚ)) (scores : List ℚ)
    (h1 : build_space ks = .ok bst)
    (h2 : transfer bst.knobs x0 y0 = .ok (vecs, scores))
    (h3 : vecs ≠ []) :
    (runModel ks "bayes" x0 y0 n oracle resps).n_random_starts =
      (if vecs.length ≥ n then 0 else n - vecs.length + 1) ∧
    (vecs.length ≥ n → (runModel ks "bayes" x0 y0 n oracle resps).n_random_starts = 0) := by
  have hwrap : wrapRefX bst.ref vecs = .ok vecs := by
    cases vecs with
    | nil => exact absurd rfl h3
    | cons a l => rfl
  have hmain : (runModel ks "bayes" x0 y0 n oracle resps).n_random_starts =
      (if vecs.length ≥ n then 0 else n - vecs.length + 1) := by
    simp only [runModel, h1, h2, hwrap]
    rw [if_pos (Or.inr trivial)]
    split
    · rfl
    · rfl
    · split
      · rfl
      · rfl
  exact ⟨hmain, fun h => by rw [hmain, if_pos h]⟩

/-- Claim C3, witness: one warm-start vector against a configured count of
2 gives an adjusted count of `2 - 1 + 1`. -/
theorem claim_C3_witness :
    (build_space [kIntItems] = .ok ⟨[.cat [.int 1, .int 2]], [1], none, [kIntItems]⟩) ∧
    (transfer [kIntItems] (some [["x=5"]]) (some [.int 1]) = .ok ([[5]], [1])) ∧
    (([[(5 : ℚ)]] : List (List ℚ)) ≠ []) ∧
    (runModel [kIntItems] "bayes" (some [["x=5"]]) (some [.int 1]) 2 oracleIdle
        []).n_random_starts =
      (if ([[(5 : ℚ)]] : List (List ℚ)).length ≥ 2 then 0
       else 2 - ([[(5 : ℚ)]] : List (List ℚ)).length + 1) := by
  refine ⟨by with_unfolding_all rfl, by with_unfolding_all rfl, by simp, ?_⟩
  exact (claim_C3_adjusted_random_starts [kIntItems] (some [["x=5"]]) (some [.int 1]) 2
    oracleIdle [] ⟨[.cat [.int 1, .int 2]], [1], none, [kIntItems]⟩ [[5]] [1]
    (by with_unfolding_all rfl) (by with_unfolding_all rfl) (by simp)).1

/-- Claim C3, counterexample to the claim as stated: with one warm-start
vector and a configured count of 2 the code records 2 (because of the
`+ 1`), not the `max (2 - 1) 0 = 1` the claim states. -/
theorem claim_C3_counterexample :
    (runModel [kIntItems] "bayes" (some [["x=5"]]) (some [.int 1]) 2 oracleIdle
        []).n_random_starts = 2 ∧
    (2 : ℕ) ≠ max (2 - 1) 0 := by
  exact ⟨by with_unfolding_all rfl, by decide⟩

theorem minimizeLoop_msgs (knobs : List Knob) :
    ∀ (pts : List (List ℚ)) (params : List (String × PyVal)) (resps : List String)
      (opts : List (List ℚ)) (perf : List ℚ),
      ∀ m ∈ (minimizeLoop knobs params pts resps opts perf).1, ∃ p, m = .suggested p := by
  intro pts
  induction pts with
  | nil => intro params resps opts perf m hm; simp [minimizeLoop] at hm
  | cons pt rest ih =>
    intro params resps opts perf m hm
    cases hdv : decodeVars knobs pt params with
    | error e =>
      rw [show minimizeLoop knobs params (pt :: rest) resps opts perf = ([], .error e) from by
        simp only [minimizeLoop, hdv]] at hm
      simp at hm
    | ok params1 =>
      cases resps with
      | nil =>
        rw [show minimizeLoop knobs params (pt :: rest) [] opts perf =
            ([.suggested params1], .error .blockedRecv) from by
          simp only [minimizeLoop, hdv]] at hm
        simp at hm
        exact ⟨params1, hm⟩
      | cons r rs =>
        cases hpr : parseEvalResult r with
        | error e =>
          rw [show minimizeLoop knobs params (pt :: rest) (r :: rs) opts perf =
              ([.suggested params1], .error e) from by
            simp only [minimizeLoop, hdv, hpr]] at hm
          simp at hm
          exact ⟨params1, hm⟩
        | ok num =>
          rw [show minimizeLoop knobs params (pt :: rest) (r :: rs) opts perf =
              (.suggested params1 ::
                 (minimizeLoop knobs params1 rest rs (opts ++ [pt]) (perf ++ [num])).1,
               (minimizeLoop knobs params1 rest rs (opts ++ [pt]) (perf ++ [num])).2) from by
            simp only [minimizeLoop, hdv, hpr]] at hm
          simp at hm
          rcases hm with h | h
          · exact ⟨params1, h⟩
          · exact ih params1 rs (opts ++ [pt]) (perf ++ [num]) m h

/-- Claim C8 (amended): when a harness response contains a non-numeric
comma-separated sub-measurement, the `float()` conversion inside the
objective raises a `ValueError`, which the run reports as a value error —
the same classification as configuration errors, not the distinct
unexpected-error wrapper — in a single error message after the suggested
configurations already sent, and the run returns nothing. -/
theorem claim_C8_malformed_result (ks : List Knob) (x0 : Option (List (List String)))
    (y0 : Option (List PyVal)) (n : ℕ) (oracle : Oracle) (resps : List String)
    (bst : BState) (rx : List (List ℚ)) (ry : List ℚ) (w : List (List ℚ))
    (ms : List Msg) (m : String)
    (h1 : build_space ks = .ok bst)
    (h2 : transfer bst.knobs x0 y0 = .ok (rx, ry))
    (h3 : wrapRefX bst.ref rx = .ok w)
    (h4 : minimizeLoop bst.knobs [] oracle.evalPoints resps [] [] =
      (ms, .error (.valueError m))) :
    runModel ks "random" x0 y0 n oracle resps =
      ⟨ms ++ [.error (.valueError m)], .returned none,
       (if w.length ≥ n then 0 else n - w.length + 1), false⟩ ∧
    (∀ x ∈ ms, ∃ p, x = .suggested p) := by
  constructor
  · simp only [runModel, h1, h2, h3]
    simp only [true_or, if_true]
    rw [h4]
    rfl
  · intro x hx
    have h := minimizeLoop_msgs bst.knobs oracle.evalPoints [] resps [] []
    rw [h4] at h
    exact h x hx

/-- Claim C8, witness: one evaluation answered by the malformed response
"abc" yields exactly the suggested message followed by one value-error
report, and the run returns nothing. -/
theorem claim_C8_witness :
    (build_space [kIntItems] = .ok ⟨[.cat [.int 1, .int 2]], [1], none, [kIntItems]⟩) ∧
    (transfer [kIntItems] none none = .ok ([], [])) ∧
    (wrapRefX [1] [] = .ok [[1]]) ∧
    (minimizeLoop [kIntItems] [] [[1]] ["abc"] [] [] =
      ([.suggested [("x", .int 1)]],
       .error (.valueError "could not convert string to float: abc"))) ∧
    runModel [kIntItems] "random" none none 20 oracleOne ["abc"] =
      ⟨[.suggested [("x", .int 1)],
        .error (.valueError "could not convert string to float: abc")], .returned none,
       (if ([[(1 : ℚ)]] : List (List ℚ)).length ≥ 20 then 0
        else 20 - ([[(1 : ℚ)]] : List (List ℚ)).length + 1), false⟩ := by
  refine ⟨by with_unfolding_all rfl, by with_unfolding_all rfl, by with_unfolding_all rfl,
    by with_unfolding_all rfl, ?_⟩
  exact (claim_C8_malformed_result [kIntItems] none none 20 oracleOne ["abc"]
    ⟨[.cat [.int 1, .int 2]], [1], none, [kIntItems]⟩ [] [] [[1]]
    [.suggested [("x", .int 1)]] "could not convert string to float: abc"
    (by with_unfolding_all rfl) (by with_unfolding_all rfl) (by with_unfolding_all rfl)
    (by with_unfolding_all rfl)).1

/-- Claim C8, counterexample to the claim as stated: the malformed response
"abc" is reported as a `ValueError` — the configuration-error class — and
no unexpected-error message is ever sent, contradicting the claimed
distinct unexpected classification. -/
theorem claim_C8_counterexample :
    runModel [kIntItems] "random" none none 20 oracleOne ["abc"] =
      ⟨[.suggested [("x", .int 1)],
        .error (.valueError "could not convert string to float: abc")],
       .returned none, 20, false⟩ ∧
    (runModel [kIntItems] "random" none none 20 oracleOne ["abc"]).msgs.any
        msgIsUnexpected = false := by
  exact ⟨by with_unfolding_all rfl, by with_unfolding_all rfl⟩

theorem contStep_of_none (k : Knob) (c : Dim × ℚ × Knob) (h : contStep none k = .ok c)
    (lr : Option ℚ) : contStep lr k = .ok c := by
  unfold contStep at h ⊢
  cases hr : k.range with
  | none => simp [hr] at h
  | some rr =>
    simp only [hr] at h ⊢
    rcases rr with _ | ⟨a, _ | ⟨b, _ | ⟨x, rest⟩⟩⟩
    · simp at h
    · simp at h
    · by_cases hdi : k.dtype = "int"
      · simp only [if_pos hdi] at h ⊢; exact h
      · simp only [if_neg hdi] at h ⊢
        by_cases hdf : k.dtype = "float"
        · simp only [if_pos hdf] at h ⊢; exact h
        · simp only [if_neg hdf] at h ⊢
          simp at h
    · simp at h

theorem build_spaceStep_valid (k : Knob) (h : knobValidU k = true) (st : BState) :
    build_spaceStep st k =
      .ok ⟨st.dims ++ [dimOf k], st.ref ++ [refOf k],
           (if k.type = "continuous" then some (refOf k) else st.lastRef),
           st.knobs ++ [knobAfter k]⟩ := by
  unfold knobValidU at h
  cases hso : stepOut k with
  | error e => rw [hso] at h; simp at h
  | ok o =>
    rw [hso] at h
    simp at h
    obtain ⟨d, radd, k2⟩ := o
    simp only at h
    have href : radd = [refOf k] := by
      have h1 := list_len_one radd 0 h
      rw [h1]
      unfold refOf
      rw [hso]
    have hdim : d = dimOf k := by unfold dimOf; rw [hso]
    have hka : k2 = knobAfter k := by unfold knobAfter; rw [hso]
    unfold stepOut at hso
    by_cases ht : k.type = "discrete"
    · rw [if_pos ht] at hso
      unfold build_spaceStep
      rw [if_pos ht, hso, href, hdim, hka]
      rw [if_neg (by rw [ht]; decide)]
    · rw [if_neg ht] at hso
      by_cases hc : k.type = "continuous"
      · rw [if_pos hc] at hso
        cases hcs : contStep none k with
        | error e => rw [hcs] at hso; simp [Except.map] at hso
        | ok c =>
          rw [hcs] at hso
          simp [Except.map] at hso
          obtain ⟨h1, h2, h3⟩ := hso
          unfold build_spaceStep
          rw [if_neg ht, if_pos hc, contStep_of_none k c hcs st.lastRef]
          rw [if_pos hc]
          have hrv : c.2.1 = refOf k := by
            rw [← h2] at href
            exact (List.cons.injEq _ _ _ _).mp href |>.1
          rw [show c = (c.1, c.2.1, c.2.2) from rfl, hrv, h1, hdim]
          rw [show c.2.2 = k2 from h3, hka]
      · rw [if_neg hc] at hso
        simp at hso

theorem buildGo_valid (ks : List Knob) (h : ∀ k ∈ ks, knobValidU k = true) :
    ∀ st : BState, ∃ lr, buildGo st ks =
      .ok ⟨st.dims ++ ks.map dimOf, st.ref ++ ks.map refOf, lr,
           st.knobs ++ ks.map knobAfter⟩ := by
  induction ks with
  | nil =>
    intro st
    exact ⟨st.lastRef, by simp [buildGo]⟩
  | cons k rest ih =>
    intro st
    have hk := h k (List.mem_cons_self k rest)
    have hstep := build_spaceStep_valid k hk st
    obtain ⟨lr, hrest⟩ := ih (fun x hx => h x (List.mem_cons_of_mem k hx))
      ⟨st.dims ++ [dimOf k], st.ref ++ [refOf k],
       (if k.type = "continuous" then some (refOf k) else st.lastRef),
       st.knobs ++ [knobAfter k]⟩
    refine ⟨lr, ?_⟩
    simp only [buildGo, hstep, hrest]
    simp [List.append_assoc]

/-- Claim C1 (amended): for every knob list whose knobs are individually
accepted by the space builder and contribute exactly one reference entry
each — in particular every string-dtype knob's ref matches exactly one
option — `build_space` succeeds, its dimension list and reference vector
both have exactly one entry per knob, and the entry at position i is the
one computed from the knob at position i alone (positional
correspondence). -/
theorem claim_C1_positional (ks : List Knob) (h : ks.all knobValidU = true) :
    (build_space ks).map (fun st => st.dims) = .ok (ks.map dimOf) ∧
    (build_space ks).map (fun st => st.ref) = .ok (ks.map refOf) ∧
    (build_space ks).map (fun st => st.dims.length) = .ok ks.length ∧
    (build_space ks).map (fun st => st.ref.length) = .ok ks.length := by
  have h2 : ∀ k ∈ ks, knobValidU k = true := by
    intro k hk
    exact List.all_eq_true.mp h k hk
  obtain ⟨lr, hgo⟩ := buildGo_valid ks h2 ⟨[], [], none, []⟩
  unfold build_space
  rw [hgo]
  simp [Except.map]

/-- Claim C1, witness: a continuous int knob followed by a string knob with
a uniquely matching ref build to one dimension and one reference entry per
knob, in knob order. -/
theorem claim_C1_witness :
    (([⟨"x", "continuous", "int", some [.int 0, .int 10], none, [], none, .int 5⟩,
       ⟨"m", "discrete", "string", none, none, ["a", "b"], none, .str "b"⟩] :
        List Knob).all knobValidU = true) ∧
    (build_space [⟨"x", "continuous", "int", some [.int 0, .int 10], none, [], none, .int 5⟩,
       ⟨"m", "discrete", "string", none, none, ["a", "b"], none, .str "b"⟩]).map
        (fun st => st.dims) =
      .ok ([⟨"x", "continuous", "int", some [.int 0, .int 10], none, [], none, .int 5⟩,
         ⟨"m", "discrete", "string", none, none, ["a", "b"], none, .str "b"⟩].map dimOf) ∧
    (build_space [⟨"x", "continuous", "int", some [.int 0, .int 10], none, [], none, .int 5⟩,
       ⟨"m", "discrete", "string", none, none, ["a", "b"], none, .str "b"⟩]).map
        (fun st => st.ref) =
      .ok ([⟨"x", "continuous", "int", some [.int 0, .int 10], none, [], none, .int 5⟩,
         ⟨"m", "discrete", "string", none, none, ["a", "b"], none, .str "b"⟩].map refOf) := by
  refine ⟨by with_unfolding_all rfl, ?_, ?_⟩
  · exact (claim_C1_positional _ (by with_unfolding_all rfl)).1
  · exact (claim_C1_positional _ (by with_unfolding_all rfl)).2.1

/-- Claim C1, counterexample to the claim as stated: a knob list the
builder accepts whose reference vector has two entries for one knob — the
string knob's options contain the ref value at two positions, and the
builder appends one index per match, breaking the claimed equal-length
positional correspondence. -/
theorem claim_C1_counterexample :
    build_space [⟨"m", "discrete", "string", none, none, ["a", "a"], none, .str "a"⟩] =
      .ok ⟨[.cat [.int 0, .int 1]], [0, 1], none,
           [⟨"m", "discrete", "string", none, none, ["a", "a"], none, .str "a"⟩]⟩ ∧
    ([(0 : ℚ), 1].length ≠
      ([⟨"m", "discrete", "string", none, none, ["a", "a"], none, .str "a"⟩] :
        List Knob).length) :=
  ⟨by with_unfolding_all rfl, by decide⟩

theorem handle_discrete_pres (k : Knob) (d : Dim) (radd : List ℚ) (k2 : Knob)
    (h : handle_discrete_data k = .ok (d, radd, k2)) : presKnob k k2 := by
  unfold handle_discrete_data at h
  by_cases h1 : k.dtype = "int"
  · rw [if_pos h1] at h
    cases har : arangeAllInt k with
    | error e => simp only [har] at h; simp at h
    | ok ar =>
      cases hrv : pyInt k.ref with
      | error e => simp only [har, hrv] at h; simp at h
      | ok rv =>
        simp only [har, hrv] at h
        simp at h
        obtain ⟨-, -, hk2⟩ := h
        rw [← hk2]
        exact ⟨rfl, rfl, rfl, rfl, rfl, rfl⟩
  · rw [if_neg h1] at h
    by_cases h2 : k.dtype = "float"
    · rw [if_pos h2] at h
      cases har : arangeAllFloat k with
      | error e => simp only [har] at h; simp at h
      | ok ar =>
        cases hrv : pyFloat k.ref with
        | error e => simp only [har, hrv] at h; simp at h
        | ok rv =>
          simp only [har, hrv] at h
          simp at h
          obtain ⟨-, -, hk2⟩ := h
          rw [← hk2]
          exact ⟨rfl, rfl, rfl, rfl, rfl, rfl⟩
    · rw [if_neg h2] at h
      by_cases h3 : k.dtype = "string"
      · rw [if_pos h3] at h
        rcases hsl : stringLoop k.ref 0 k.options with ⟨keys, ms⟩
        simp only [hsl] at h
        split at h
        · simp at h
        · simp at h
          obtain ⟨-, -, hk2⟩ := h
          rw [← hk2]
          exact ⟨rfl, rfl, rfl, rfl, rfl, rfl⟩
      · rw [if_neg h3] at h
        simp at h

theorem contStep_pres (lr : Option ℚ) (k : Knob) (d : Dim) (rv : ℚ) (k2 : Knob)
    (h : contStep lr k = .ok (d, rv, k2)) : presKnob k k2 := by
  unfold contStep at h
  cases hr : k.range with
  | none => simp only [hr] at h; simp at h
  | some rr =>
    simp only [hr] at h
    rcases rr with _ | ⟨a, _ | ⟨b, _ | ⟨x, rest⟩⟩⟩
    · simp at h
    · simp at h
    · split_ifs at h with h1 h2
      · cases h3 : pyInt k.ref with
        | error e => simp only [h3] at h; simp at h
        | ok rv2 =>
          cases h4 : pyInt a with
          | error e => simp only [h3, h4] at h; simp at h
          | ok ia =>
            cases h5 : pyInt b with
            | error e => simp only [h3, h4, h5] at h; simp at h
            | ok ib =>
              simp only [h3, h4, h5] at h
              split at h
              · simp at h
              · simp at h
                obtain ⟨-, -, hk2⟩ := h
                rw [← hk2]
                exact ⟨rfl, rfl, rfl, rfl, rfl, rfl⟩
      · cases h3 : pyFloat k.ref with
        | error e => simp only [h3] at h; simp at h
        | ok rv2 =>
          cases h4 : pyFloat a with
          | error e => simp only [h3, h4] at h; simp at h
          | ok fa =>
            cases h5 : pyFloat b with
            | error e => simp only [h3, h4, h5] at h; simp at h
            | ok fb =>
              simp only [h3, h4, h5] at h
              split at h
              · simp at h
              · simp at h
                obtain ⟨-, -, hk2⟩ := h
                rw [← hk2]
                exact ⟨rfl, rfl, rfl, rfl, rfl, rfl⟩
      · cases lr with
        | none => simp at h
        | some rv0 =>
          cases h3 : pyLtQV rv0 a with
          | error e => simp only [h3] at h; simp at h
          | ok lt =>
            cases h4 : pyGtQV rv0 b with
            | error e => simp only [h3, h4] at h; simp at h
            | ok gt =>
              simp only [h3, h4] at h
              split at h
              · simp at h
              · simp at h
                obtain ⟨-, -, hk2⟩ := h
                rw [← hk2]
                exact ⟨rfl, rfl, rfl, rfl, rfl, rfl⟩
    · simp at h

theorem build_spaceStep_pres (st : BState) (k : Knob) (st2 : BState)
    (h : build_spaceStep st k = .ok st2) :
    ∃ k2, st2.knobs = st.knobs ++ [k2] ∧ presKnob k k2 := by
  unfold build_spaceStep at h
  by_cases h1 : k.type = "discrete"
  · rw [if_pos h1] at h
    cases hdd : handle_discrete_data k with
    | error e => simp only [hdd] at h; simp at h
    | ok o =>
      obtain ⟨d, radd, k2⟩ := o
      simp only [hdd] at h
      simp at h
      refine ⟨k2, ?_, handle_discrete_pres k d radd k2 hdd⟩
      rw [← h]
  · rw [if_neg h1] at h
    by_cases h2 : k.type = "continuous"
    · rw [if_pos h2] at h
      cases hcs : contStep st.lastRef k with
      | error e => simp only [hcs] at h; simp at h
      | ok o =>
        obtain ⟨d, rv, k2⟩ := o
        simp only [hcs] at h
        simp at h
        refine ⟨k2, ?_, contStep_pres st.lastRef k d rv k2 hcs⟩
        rw [← h]
    · rw [if_neg h2] at h
      simp at h

theorem buildGo_pres : ∀ (ks : List Knob) (st st2 : BState),
    buildGo st ks = .ok st2 →
    ∃ ks2, st2.knobs = st.knobs ++ ks2 ∧ List.Forall₂ presKnob ks ks2 := by
  intro ks
  induction ks with
  | nil =>
    intro st st2 h
    simp [buildGo] at h
    exact ⟨[], by rw [← h]; simp, List.Forall₂.nil⟩
  | cons k rest ih =>
    intro st st2 h
    unfold buildGo at h
    cases hs : build_spaceStep st k with
    | error e => simp only [hs] at h; simp at h
    | ok st1 =>
      simp only [hs] at h
      obtain ⟨k2, hk2, hp⟩ := build_spaceStep_pres st k st1 hs
      obtain ⟨ks2, hks2, hf⟩ := ih st1 st2 h
      exact ⟨k2 :: ks2, by rw [hks2, hk2]; simp, List.Forall₂.cons hp hf⟩

/-- Claim C9 (amended): for every successful build, the knob list keeps its
length and every descriptor keeps its `name`, `type`, `dtype`, `options`,
`step` and `ref` — but `build_space` does write the descriptors in place:
it coerces a continuous knob's `range` entries to the declared dtype and
extends a discrete int/float knob's `items` list with the values stepped
from its range, so those two fields need not hold their original values. -/
theorem claim_C9_descriptor_fields (ks : List Knob) (st : BState)
    (h : build_space ks = .ok st) :
    List.Forall₂ presKnob ks st.knobs ∧ st.knobs.length = ks.length := by
  obtain ⟨ks2, hks2, hf⟩ := buildGo_pres ks ⟨[], [], none, []⟩ st h
  have hknobs : st.knobs = ks2 := by rw [hks2]; simp
  rw [hknobs]
  exact ⟨hf, (List.Forall₂.length_eq hf).symm⟩

/-- Claim C9, witness: a discrete int knob without a range keeps all its
fields across a successful build. -/
theorem claim_C9_witness :
    (build_space [kIntItems] = .ok ⟨[.cat [.int 1, .int 2]], [1], none, [kIntItems]⟩) ∧
    List.Forall₂ presKnob [kIntItems]
      (⟨[.cat [.int 1, .int 2]], [1], none, [kIntItems]⟩ : BState).knobs ∧
    ((⟨[.cat [.int 1, .int 2]], [1], none, [kIntItems]⟩ : BState).knobs.length =
      ([kIntItems] : List Knob).length) := by
  have h : build_space [kIntItems] =
      .ok ⟨[.cat [.int 1, .int 2]], [1], none, [kIntItems]⟩ := by with_unfolding_all rfl
  have h2 := claim_C9_descriptor_fields [kIntItems] _ h
  exact ⟨h, h2.1, h2.2⟩

/-- Claim C9, counterexample to the claim as stated: `items.extend` inside
`handle_discrete_data` mutates the descriptor supplied at construction —
after `build_space`, the knob's `items` list has grown from `[5]` to
`[5, 1, 2]`. -/
theorem claim_C9_counterexample :
    build_space [⟨"k", "discrete", "int", some [.int 1, .int 2], some [.int 5], [], none,
        .int 1⟩] =
      .ok ⟨[.cat [.int 5, .int 1, .int 2]], [1], none,
           [⟨"k", "discrete", "int", some [.int 1, .int 2],
             some [.int 5, .int 1, .int 2], [], none, .int 1⟩]⟩ ∧
    ((⟨"k", "discrete", "int", some [.int 1, .int 2], some [.int 5, .int 1, .int 2], [], none,
        .int 1⟩ : Knob) ≠
      ⟨"k", "discrete", "int", some [.int 1, .int 2], some [.int 5], [], none, .int 1⟩) :=
  ⟨by with_unfolding_all rfl, by decide⟩

/-- Claim C7 (amended): during warm-start transfer every non-string dtype —
int and float alike — is resolved with Python `int()`, so an integer
literal is accepted but a syntactically valid float literal such as "5.5"
is rejected even for a float-dtype knob; a string dtype resolves to the
indices of the options matching the value. -/
theorem claim_C7_intvalue_resolution (k : Knob) (v : String) :
    (k.dtype ≠ "string" →
      get_intvalue_from_knobs [k] [(k.name, v)] =
        (pyIntOfString v).map (fun n => [(n : ℚ)])) ∧
    (k.dtype = "string" →
      get_intvalue_from_knobs [k] [(k.name, v)] =
        .ok (stringLoop (.str v) 0 k.options).2) := by
  have hget : dictGet [(k.name, v)] k.name = some v := by
    simp [dictGet]
  constructor
  · intro h
    simp only [get_intvalue_from_knobs, hget]
    rw [if_pos h]
    cases hp : pyIntOfString v with
    | error e => simp [hp, Except.map]
    | ok n => simp [hp, Except.map, get_intvalue_from_knobs]
  · intro h
    simp only [get_intvalue_from_knobs, hget]
    rw [if_neg (fun hn => hn h)]
    simp [get_intvalue_from_knobs]

/-- Claim C7, witness: an integer literal resolves for an int knob, and a
string value resolves to the matching option index for a string knob. -/
theorem claim_C7_witness :
    ((⟨"x", "discrete", "int", none, none, [], none, .int 1⟩ : Knob).dtype ≠ "string") ∧
    get_intvalue_from_knobs [⟨"x", "discrete", "int", none, none, [], none, .int 1⟩]
      [("x", "7")] = .ok [(7 : ℚ)] ∧
    ((⟨"m", "discrete", "string", none, none, ["a", "b"], none, .str "b"⟩ : Knob).dtype =
      "string") ∧
    get_intvalue_from_knobs [⟨"m", "discrete", "string", none, none, ["a", "b"], none,
      .str "b"⟩] [("m", "b")] = .ok [(1 : ℚ)] := by
  refine ⟨by decide, ?_, rfl, ?_⟩
  · have h := (claim_C7_intvalue_resolution
      ⟨"x", "discrete", "int", none, none, [], none, .int 1⟩ "7").1 (by decide)
    rw [h]
    with_unfolding_all rfl
  · have h := (claim_C7_intvalue_resolution
      ⟨"m", "discrete", "string", none, none, ["a", "b"], none, .str "b"⟩ "b").2 rfl
    rw [h]
    with_unfolding_all rfl

/-- Claim C7, counterexample to the claim as stated: the float-dtype value
"5.5" is syntactically a valid float, yet warm-start resolution rejects it
with a `ValueError`, because the code applies `int()` to every non-string
dtype instead of `float()` for float dtypes. -/
theorem claim_C7_counterexample :
    get_intvalue_from_knobs [⟨"x", "discrete", "float", none, none, [], none, .float 1⟩]
      [("x", "5.5")] =
      .error (.valueError "invalid literal for int() with base 10: 5.5") := by
  with_unfolding_all rfl

theorem dictGet_dictSet {β : Type} (a : String) (b : β) (n : String) :
    ∀ d : List (String × β),
      dictGet (dictSet d a b) n = if n = a then some b else dictGet d n := by
  intro d
  induction d with
  | nil =>
    by_cases hn : n = a
    · simp [dictSet, dictGet, hn]
    · have hna : ¬ a = n := fun h => hn h.symm
      simp [dictSet, dictGet, hn, hna]
  | cons p rest ih =>
    by_cases hp : p.1 = a
    · simp only [dictSet, if_pos hp]
      by_cases hn : n = a
      · simp [dictGet, hn]
      · have hna : ¬ a = n := fun h => hn h.symm
        have hpn : ¬ p.1 = n := by rw [hp]; exact hna
        simp [dictGet, hn, hna, hpn]
    · simp only [dictSet, if_neg hp]
      by_cases hq : p.1 = n
      · have hn : ¬ n = a := by rw [← hq]; exact fun h => hp h
        simp [dictGet, hq, hn]
      · have hfind : ∀ l : List (String × β),
            List.find? (fun q => q.1 = n) (p :: l) = List.find? (fun q => q.1 = n) l :=
          fun l => List.find?_cons_of_neg l (by simp [hq])
        by_cases hn : n = a
        · rw [if_pos hn]
          unfold dictGet
          rw [hfind]
          have h2 := ih
          rw [if_pos hn] at h2
          unfold dictGet at h2
          exact h2
        · rw [if_neg hn]
          unfold dictGet
          rw [hfind, hfind]
          have h2 := ih
          rw [if_neg hn] at h2
          unfold dictGet at h2
          exact h2

theorem lookupTok_cons (t : String) (rest : List String) (n : String) :
    lookupTok (t :: rest) n =
      (match lookupTok rest n with
       | some v => some v
       | none => if tokenName t = n then some (tokenValOf t) else none) := by
  unfold lookupTok
  rw [List.reverse_cons, List.find?_append]
  cases hfr : List.find? (fun s => tokenName s = n) rest.reverse with
  | some v => simp
  | none =>
    by_cases ht : tokenName t = n
    · simp [ht]
    · simp [ht]

theorem kvOfTokens_get (toks : List String) :
    toks.all (fun t => (pySplit '=' t).length = 2) = true →
    ∀ kv0 : List (String × String), ∃ kv, kvOfTokens toks kv0 = .ok kv ∧
      ∀ n, dictGet kv n =
        (match lookupTok toks n with
         | some v => some v
         | none => dictGet kv0 n) := by
  induction toks with
  | nil =>
    intro _ kv0
    exact ⟨kv0, rfl, fun n => by simp [lookupTok]⟩
  | cons t rest ih =>
    intro h kv0
    rw [List.all_cons, Bool.and_eq_true] at h
    obtain ⟨h1, h2⟩ := h
    obtain ⟨p1, p2, hsp⟩ : ∃ p1 p2, pySplit '=' t = [p1, p2] := by
      rcases hx : pySplit '=' t with _ | ⟨x1, _ | ⟨x2, _ | ⟨x3, xr⟩⟩⟩ <;>
        rw [hx] at h1 <;> simp at h1
      exact ⟨x1, x2, rfl⟩
    obtain ⟨kv, hkv, hget⟩ := ih h2 (dictSet kv0 p1 p2)
    refine ⟨kv, ?_, ?_⟩
    · unfold kvOfTokens
      rw [hsp]
      exact hkv
    · intro n
      rw [hget n, lookupTok_cons]
      have hname : tokenName t = p1 := by unfold tokenName; rw [hsp]; rfl
      have hval : tokenValOf t = p2 := by unfold tokenValOf; rw [hsp]; rfl
      cases hl : lookupTok rest n with
      | some v => simp
      | none =>
        simp only
        rw [dictGet_dictSet, hname, hval]
        by_cases hn : n = p1
        · rw [if_pos hn, if_pos hn.symm]
        · rw [if_neg hn, if_neg (fun hx => hn hx.symm)]

theorem get_intvalue_ok (kv : List (String × String)) :
    ∀ knobs : List Knob, (∀ k ∈ knobs, kvValsOk kv k = true) →
      get_intvalue_from_knobs knobs kv = .ok (knobs.map (encKV kv)) := by
  intro knobs
  induction knobs with
  | nil => intro _; rfl
  | cons k rest ih =>
    intro h
    have hk := h k (List.mem_cons_self k rest)
    have hrest := ih (fun x hx => h x (List.mem_cons_of_mem k hx))
    unfold kvValsOk at hk
    unfold get_intvalue_from_knobs
    cases hg : dictGet kv k.name with
    | none => rw [hg] at hk; simp at hk
    | some v =>
      simp only [hg] at hk ⊢
      by_cases hd : k.dtype = "string"
      · rw [if_neg (fun hn => hn hd)]
        rw [if_pos hd] at hk
        simp at hk
        obtain ⟨m, hm⟩ : ∃ m, (stringLoop (.str v) 0 k.options).2 = [m] :=
          ⟨_, list_len_one (stringLoop (.str v) 0 k.options).2 0 hk⟩
        have henc : encKV kv k = m := by
          unfold encKV
          rw [hg]
          simp [hd, hm]
        simp only [hrest, hm]
        rw [List.map_cons, henc]
        try rfl
      · rw [if_pos hd]
        rw [if_neg hd] at hk
        cases hp : pyIntOfString v with
        | error e => rw [hp] at hk; simp [exOk] at hk
        | ok i =>
          have henc : encKV kv k = (i : ℚ) := by
            unfold encKV
            rw [hg]
            simp [hd, hp]
          simp only [hrest]
          rw [List.map_cons, henc]
          try rfl

theorem mapE_pyFloat_ok (ys : List PyVal) (h : ys.all (fun y => exOk (pyFloat y)) = true) :
    mapE pyFloat ys = .ok (ys.map pyFloatD) := by
  induction ys with
  | nil => rfl
  | cons y rest ih =>
    rw [List.all_cons, Bool.and_eq_true] at h
    obtain ⟨h1, h2⟩ := h
    unfold mapE
    cases hy : pyFloat y with
    | error e => rw [hy] at h1; simp [exOk] at h1
    | ok q =>
      simp only [ih h2]
      have : pyFloatD y = q := by unfold pyFloatD; rw [hy]
      rw [List.map_cons, this]

theorem transferEntries_ok (knobs : List Knob) :
    ∀ x0 : List (List String),
      (∀ xv ∈ x0, xv.length = knobs.length ∧ tokensOk knobs xv = true ∧
        entryValsOk knobs xv = true) →
      transferEntries knobs x0 = .ok (x0.map (fun toks => knobs.map (encKnob toks))) := by
  intro x0
  induction x0 with
  | nil => intro _; rfl
  | cons xv rest ih =>
    intro h
    obtain ⟨hlen, htok, hval⟩ := h xv (List.mem_cons_self xv rest)
    have hrest := ih (fun x hx => h x (List.mem_cons_of_mem xv hx))
    unfold transferEntries
    rw [if_neg (by rw [hlen]; exact fun hne => hne rfl)]
    have hall : xv.all (fun t => (pySplit '=' t).length = 2) = true := by
      unfold tokensOk at htok
      rw [Bool.and_eq_true] at htok
      exact htok.1
    obtain ⟨kv, hkv, hget⟩ := kvOfTokens_get xv hall []
    have hbridge : ∀ n, dictGet kv n = lookupTok xv n := by
      intro n
      rw [hget n]
      cases lookupTok xv n with
      | some v => rfl
      | none => simp [dictGet]
    have hv : ∀ k ∈ knobs, kvValsOk kv k = true := by
      intro k hkmem
      have hall2 := List.all_eq_true.mp hval k hkmem
      unfold kvValsOk
      rw [hbridge k.name]
      exact hall2
    have hencs : knobs.map (encKV kv) = knobs.map (encKnob xv) := by
      apply List.map_congr_left
      intro k _
      unfold encKV encKnob
      rw [hbridge k.name]
    rw [hkv]
    simp only [get_intvalue_ok kv knobs hv]
    rw [if_neg (by simp)]
    simp only [hrest]
    rw [List.map_cons, hencs]

theorem transferEntries_badlen (knobs : List Knob) :
    ∀ x0 : List (List String), (∃ xv ∈ x0, xv.length ≠ knobs.length) →
      exOk (transferEntries knobs x0) = false := by
  intro x0
  induction x0 with
  | nil =>
    rintro ⟨xv, hmem, -⟩
    simp at hmem
  | cons a rest ih =>
    rintro ⟨xv, hmem, hne⟩
    unfold transferEntries
    by_cases hl : a.length ≠ knobs.length
    · rw [if_pos hl]; rfl
    · rw [if_neg hl]
      have hxvr : xv ∈ rest := by
        rcases List.mem_cons.mp hmem with h | h
        · exact absurd (h ▸ hne) hl
        · exact h
      cases hkv : kvOfTokens a [] with
      | error e => rfl
      | ok kv =>
        cases hg : get_intvalue_from_knobs knobs kv with
        | error e => simp only [hg]; rfl
        | ok refX =>
          simp only [hg]
          by_cases hrl : refX.length ≠ knobs.length
          · rw [if_pos hrl]; rfl
          · rw [if_neg hrl]
            cases hres : transferEntries knobs rest with
            | error e => simp only [hres]; rfl
            | ok rs =>
              have hfalse := ih ⟨xv, hxvr, hne⟩
              rw [hres] at hfalse
              simp [exOk] at hfalse

/-- Claim C6 (amended): `transfer` fails whenever any `x0` entry's token
count differs from the knob count; and it succeeds — producing one vector
per entry whose i-th component is the encoding of the value named for the
i-th knob, so component order follows knob order — when additionally every
token splits into exactly two parts on `=`, every knob name appears exactly
once among the tokens, every non-string-dtype value is an integer literal,
every string-dtype value matches exactly one option, and every `y0` entry
converts to float.  (Name-uniqueness alone is not sufficient: a value that
fails its knob's resolution still aborts the transfer.) -/
theorem claim_C6_transfer_shape (knobs : List Knob) (x0 : List (List String))
    (y0 : List PyVal) :
    ((∃ xv ∈ x0, xv.length ≠ knobs.length) →
      exOk (transfer knobs (some x0) (some y0)) = false) ∧
    ((x0.all (fun xv => (decide (xv.length = knobs.length)) && tokensOk knobs xv &&
        entryValsOk knobs xv)) = true →
      (y0.all (fun y => exOk (pyFloat y))) = true →
      transfer knobs (some x0) (some y0) =
        .ok (x0.map (fun toks => knobs.map (encKnob toks)), y0.map pyFloatD)) := by
  constructor
  · intro hex
    unfold transfer
    cases hte : transferEntries knobs x0 with
    | error e => simp only [hte]; rfl
    | ok vecs =>
      have hbad := transferEntries_badlen knobs x0 hex
      rw [hte] at hbad
      simp [exOk] at hbad
  · intro hx hy
    have hx2 : ∀ xv ∈ x0, xv.length = knobs.length ∧ tokensOk knobs xv = true ∧
        entryValsOk knobs xv = true := by
      intro xv hmem
      have hall := List.all_eq_true.mp hx xv hmem
      rw [Bool.and_eq_true, Bool.and_eq_true] at hall
      exact ⟨of_decide_eq_true hall.1.1, hall.1.2, hall.2⟩
    unfold transfer
    simp only [transferEntries_ok knobs x0 hx2, mapE_pyFloat_ok y0 hy]

/-- Claim C6, witness: two knobs, tokens given in the opposite order of the
knobs; the output vector follows knob order and `y0` is cast to float. -/
theorem claim_C6_witness :
    (([["m=b", "x=3"]] : List (List String)).all (fun xv =>
      (decide (xv.length = ([kIntItems,
        ⟨"m", "discrete", "string", none, none, ["a", "b"], none, .str "b"⟩] :
          List Knob).length)) &&
      tokensOk [kIntItems,
        ⟨"m", "discrete", "string", none, none, ["a", "b"], none, .str "b"⟩] xv &&
      entryValsOk [kIntItems,
        ⟨"m", "discrete", "string", none, none, ["a", "b"], none, .str "b"⟩] xv) = true) ∧
    (([PyVal.int 1] : List PyVal).all (fun y => exOk (pyFloat y)) = true) ∧
    transfer [kIntItems, ⟨"m", "discrete", "string", none, none, ["a", "b"], none, .str "b"⟩]
        (some [["m=b", "x=3"]]) (some [.int 1]) =
      .ok (([["m=b", "x=3"]] : List (List String)).map (fun toks =>
        ([kIntItems, ⟨"m", "discrete", "string", none, none, ["a", "b"], none,
          .str "b"⟩] : List Knob).map (encKnob toks)),
        ([PyVal.int 1] : List PyVal).map pyFloatD) := by
  refine ⟨by with_unfolding_all rfl, by with_unfolding_all rfl, ?_⟩
  exact (claim_C6_transfer_shape _ _ _).2 (by with_unfolding_all rfl)
    (by with_unfolding_all rfl)

/-- Claim C6, counterexample to the claim as stated: an entry whose token
count equals the knob count and in which every knob name appears exactly
once, yet `transfer` fails — the value "abc" does not parse for the int
knob — so name coverage alone does not make `transfer` succeed. -/
theorem claim_C6_counterexample :
    (tokensOk [kIntItems] ["x=abc"] = true) ∧
    ((["x=abc"] : List String).length = ([kIntItems] : List Knob).length) ∧
    transfer [kIntItems] (some [["x=abc"]]) (some [.int 1]) =
      .error (.valueError "invalid literal for int() with base 10: abc") :=
  ⟨by with_unfolding_all rfl, by with_unfolding_all rfl, by with_unfolding_all rfl⟩

theorem roundHalfEven_close (q : ℚ) : |(roundHalfEven q : ℚ) - q| ≤ 1 / 2 := by
  have h0 : (⌊q⌋ : ℚ) ≤ q := Int.floor_le q
  have h1 : q < (⌊q⌋ : ℚ) + 1 := Int.lt_floor_add_one q
  unfold roundHalfEven
  split_ifs with ha hb hc
  · rw [abs_le]
    constructor <;> linarith
  · rw [abs_le]
    push_cast
    constructor <;> linarith
  · rw [abs_le]
    constructor <;> linarith
  · rw [abs_le]
    push_cast
    constructor <;> linarith

theorem round2_close (q : ℚ) : |round2 q - q| ≤ 1 / 200 := by
  have h := roundHalfEven_close (q * 100)
  unfold round2
  have heq : (roundHalfEven (q * 100) : ℚ) / 100 - q =
      ((roundHalfEven (q * 100) : ℚ) - q * 100) / 100 := by ring
  rw [heq, abs_div, abs_of_pos (by norm_num : (0 : ℚ) < 100)]
  linarith

theorem sum_round2_close : ∀ l : List ℚ,
    |(l.map round2).sum - l.sum| ≤ (l.length : ℚ) / 200 := by
  intro l
  induction l with
  | nil => simp
  | cons a rest ih =>
    have ha := round2_close a
    simp only [List.map_cons, List.sum_cons, List.length_cons]
    have heq : round2 a + (rest.map round2).sum - (a + rest.sum) =
        (round2 a - a) + ((rest.map round2).sum - rest.sum) := by ring
    rw [heq]
    calc |(round2 a - a) + ((rest.map round2).sum - rest.sum)|
        ≤ |round2 a - a| + |(rest.map round2).sum - rest.sum| := abs_add _ _
      _ ≤ 1 / 200 + (rest.length : ℚ) / 200 := by linarith
      _ = ((rest.length : ℚ) + 1) / 200 := by ring
      _ = (((rest.length + 1 : ℕ)) : ℚ) / 200 := by push_cast; ring

theorem listSum_map_mul (c : ℚ) : ∀ l : List ℚ, (l.map (fun x => x * c)).sum = l.sum * c := by
  intro l
  induction l with
  | nil => simp
  | cons a rest ih => simp [ih, add_mul]

theorem feature_importance_sum_close (coefs : List ℚ) (labels : List String)
    (ht : (coefs.map (fun c => |c|)).sum ≠ 0) (hlen : coefs.length = labels.length) :
    |((feature_importance coefs labels).map (fun p => p.2)).sum -
      100 * coefs.sum / (coefs.map (fun c => |c|)).sum| ≤ (coefs.length : ℚ) / 200 := by
  set t := (coefs.map (fun c => |c|)).sum with hts
  have hfi : feature_importance coefs labels =
      (List.insertionSort rankLe (coefs.zip labels)).map
        (fun p => (p.2, round2 (p.1 * 100 / t))) := by
    unfold feature_importance
    rw [← hts, if_neg ht]
  rw [hfi, List.map_map]
  have hcomp : ((fun p : String × ℚ => p.2) ∘
      (fun p : ℚ × String => (p.2, round2 (p.1 * 100 / t)))) =
      (fun p : ℚ × String => round2 (p.1 * 100 / t)) := rfl
  rw [hcomp]
  have hmapE : (List.insertionSort rankLe (coefs.zip labels)).map
      (fun p : ℚ × String => round2 (p.1 * 100 / t)) =
      ((List.insertionSort rankLe (coefs.zip labels)).map
        (fun p : ℚ × String => p.1 * 100 / t)).map round2 := by
    rw [List.map_map]
    rfl
  have hsumE : ((List.insertionSort rankLe (coefs.zip labels)).map
      (fun p : ℚ × String => p.1 * 100 / t)).sum = 100 * coefs.sum / t := by
    have hperm := (List.perm_insertionSort rankLe (coefs.zip labels)).map
      (fun p : ℚ × String => p.1 * 100 / t)
    rw [hperm.sum_eq]
    rw [show (fun p : ℚ × String => p.1 * 100 / t) =
      ((fun x : ℚ => x * 100 / t) ∘ Prod.fst) from rfl, ← List.map_map]
    rw [List.map_fst_zip coefs labels (le_of_eq hlen)]
    have hcg : coefs.map (fun x : ℚ => x * 100 / t) =
        coefs.map (fun x : ℚ => x * (100 / t)) := by
      apply List.map_congr_left
      intro x _
      rw [mul_div_assoc]
    rw [hcg, listSum_map_mul]
    ring
  have hlenE : ((List.insertionSort rankLe (coefs.zip labels)).map
      (fun p : ℚ × String => p.1 * 100 / t)).length = coefs.length := by
    rw [List.length_map, List.length_insertionSort, List.length_zip, hlen, min_self]
  have hclose := sum_round2_close ((List.insertionSort rankLe (coefs.zip labels)).map
      (fun p : ℚ × String => p.1 * 100 / t))
  rw [hsumE, hlenE] at hclose
  rw [hmapE]
  exact hclose

/-- Claim C4 (amended): the model of `feature_importance` after the
external regression.  When every coefficient is zero, every knob is
reported at 0 instead of dividing by zero.  Otherwise the entries are the
`(coefficient, label)` pairs stably sorted by descending absolute
coefficient, each mapped to the rounded SIGNED percentage
`coef * 100 / sum-of-absolute-coefficients`, so the percentages sum (up to
the half-cent rounding of each entry) to `100 * sum(coefs) / sum(|coefs|)`
— which equals 100 when every coefficient is non-negative, but not in
general, since negative coefficients contribute negative percentages. -/
theorem claim_C4_rank_percentages (coefs : List ℚ) (labels : List String) :
    ((coefs.map (fun c => |c|)).sum = 0 →
      feature_importance coefs labels = labels.map (fun l => (l, (0 : ℚ)))) ∧
    ((coefs.map (fun c => |c|)).sum ≠ 0 →
      List.Sorted rankLe (List.insertionSort rankLe (coefs.zip labels)) ∧
      feature_importance coefs labels =
        (List.insertionSort rankLe (coefs.zip labels)).map
          (fun p => (p.2, round2 (p.1 * 100 / (coefs.map (fun c => |c|)).sum)))) ∧
    ((coefs.map (fun c => |c|)).sum ≠ 0 → coefs.length = labels.length →
      |((feature_importance coefs labels).map (fun p => p.2)).sum -
        100 * coefs.sum / (coefs.map (fun c => |c|)).sum| ≤ (coefs.length : ℚ) / 200) ∧
    ((coefs.map (fun c => |c|)).sum ≠ 0 → coefs.length = labels.length →
      (∀ c ∈ coefs, 0 ≤ c) →
      |((feature_importance coefs labels).map (fun p => p.2)).sum - 100| ≤
        (coefs.length : ℚ) / 200) := by
  refine ⟨?_, ?_, ?_, ?_⟩
  · intro h
    unfold feature_importance
    rw [if_pos h]
  · intro ht
    exact ⟨List.sorted_insertionSort rankLe (coefs.zip labels), by
      unfold feature_importance
      rw [if_neg ht]⟩
  · intro ht hlen
    exact feature_importance_sum_close coefs labels ht hlen
  · intro ht hlen hnn
    have habs : coefs.map (fun c => |c|) = coefs := by
      have hcg : coefs.map (fun c => |c|) = coefs.map id :=
        List.map_congr_left (fun c hc => abs_of_nonneg (hnn c hc))
      rw [hcg, List.map_id]
    have hs : coefs.sum ≠ 0 := by rw [habs] at ht; exact ht
    have h3 := feature_importance_sum_close coefs labels ht hlen
    rw [habs] at h3
    rw [mul_div_assoc, div_self hs, mul_one] at h3
    exact h3

/-- Claim C4, witness: all-zero coefficients report every knob at 0, and
for the non-negative coefficients `[3, 1]` the rounded signed percentages
sum to 100 up to rounding. -/
theorem claim_C4_witness :
    ((([(0 : ℚ)]).map (fun c => |c|)).sum = 0) ∧
    feature_importance [0] ["a"] = (["a"].map (fun l => (l, (0 : ℚ)))) ∧
    ((([(3 : ℚ), 1]).map (fun c => |c|)).sum ≠ 0) ∧
    (([(3 : ℚ), 1] : List ℚ).length = (["a", "b"] : List String).length) ∧
    |((feature_importance [3, 1] ["a", "b"]).map (fun p => p.2)).sum - 100| ≤
      ((([(3 : ℚ), 1] : List ℚ).length : ℚ) / 200) := by
  refine ⟨by norm_num, ?_, by norm_num, rfl, ?_⟩
  · exact (claim_C4_rank_percentages [0] ["a"]).1 (by norm_num)
  · exact (claim_C4_rank_percentages [3, 1] ["a", "b"]).2.2.2 (by norm_num) rfl
      (by intro c hc; simp [List.mem_cons] at hc; rcases hc with rfl | rfl <;> norm_num)

/-- Claim C4, counterexample to the claim as stated: with coefficients
`[1, -1]` the reported percentages are 50 and -50 — the code divides the
SIGNED coefficient by the sum of absolute values — so they sum to 0, not
to 100 up to rounding, although a coefficient is non-zero. -/
theorem claim_C4_counterexample :
    ((feature_importance [1, -1] ["a", "b"]).map (fun p => p.2)).sum = 0 ∧
    ((0 : ℚ) ≠ 100) :=
  ⟨by with_unfolding_all rfl, by norm_num⟩
